import Mathlib

/-!
Verification of the in-memory notes HTTP service (src/index.js).

The service keeps an ordered list of note records and exposes CRUD
handlers.  We shallowly embed the request handlers as pure functions from
the current collection (and the request data) to a response paired with
the new collection.  JavaScript values that flow through request bodies
(the content and important fields) are modelled by the inductive type
JsValue, with JavaScript truthiness as a Boolean predicate; a path id
parsed with Number(...) is modelled by PathId, where the nan constructor
stands for the NaN result of a failed parse (strict equality with NaN is
always false, which idMatches reflects).
-/

/-- A JavaScript value as it can appear in a JSON request body field
(undefined meaning the field is absent). -/
inductive JsValue where
  | undef
  | null
  | nan
  | bool (b : Bool)
  | num (n : Int)
  | str (s : String)
deriving DecidableEq

/-- JavaScript truthiness: undefined, null, NaN, false, 0 and the empty
string are falsy; everything else is truthy. -/
def JsValue.truthy : JsValue → Bool
  | .undef => false
  | .null => false
  | .nan => false
  | .bool b => b
  | .num n => n != 0
  | .str s => s != ""

/-- A note record: id, content, important and date fields, as built by the
create handler (content and important hold whatever JavaScript value the
body supplied, the date an ISO timestamp string). -/
structure Note where
  id : Int
  content : JsValue
  important : JsValue
  date : String
deriving DecidableEq

/-- The result of Number(req.params.id): a numeric id, or NaN when the
path segment does not parse to a number. -/
inductive PathId where
  | nan
  | num (i : Int)
deriving DecidableEq

/-- Strict equality note.id === id between a stored id and a parsed path
id; NaN compares equal to nothing. -/
def idMatches (n : Note) (pid : PathId) : Bool :=
  match pid with
  | .nan => false
  | .num i => n.id == i

/-- A parsed JSON request body for create and update: the content and
important fields (JsValue.undef when a field is absent). -/
structure ReqBody where
  content : JsValue
  important : JsValue
deriving DecidableEq

/-- A response body: a single note, the note array, a JSON error object,
or the empty body of a 204. -/
inductive ResBody where
  | note (n : Note)
  | notes (ns : List Note)
  | error (msg : String)
  | empty
deriving DecidableEq

/-- An HTTP response: status code and body. -/
structure Response where
  status : Nat
  body : ResBody
deriving DecidableEq

def msgNoteNotFound : String := "Note not found"

def msgContentRequired : String := "Content is required"

def seedContent1 : String := "HTML is easy"

def seedContent2 : String := "Browser can execute only JavaScript"

def seedContent3 : String := "GET and POST are the most important methods of HTTP protocol"

/-- The three seed notes the collection is initialized with; the dates are
stamped at startup and passed in here. -/
def seedNotes (d1 d2 d3 : String) : List Note :=
  [ { id := 1, content := JsValue.str seedContent1,
      important := JsValue.bool true, date := d1 },
    { id := 2, content := JsValue.str seedContent2,
      important := JsValue.bool false, date := d2 },
    { id := 3, content := JsValue.str seedContent3,
      important := JsValue.bool true, date := d3 } ]

/-- Math.max over the ids when the collection is nonempty, 0 otherwise:
the maxId of generateId. -/
def maxId (notes : List Note) : Int :=
  match notes with
  | [] => 0
  | n :: rest => rest.foldl (fun m x => max m x.id) n.id

/-- generateId: maxId + 1. -/
def generateId (notes : List Note) : Int :=
  maxId notes + 1

/-- GET /api/notes: the whole collection as JSON, no state change. -/
def listNotes (notes : List Note) : Response × List Note :=
  ({ status := 200, body := ResBody.notes notes }, notes)

/-- GET /api/notes/:id: find the note by strict id equality; 200 with the
note, or 404 with an error body.  No state change. -/
def getNote (notes : List Note) (pid : PathId) : Response × List Note :=
  match notes.find? (fun n => idMatches n pid) with
  | some n => ({ status := 200, body := ResBody.note n }, notes)
  | none => ({ status := 404, body := ResBody.error msgNoteNotFound }, notes)

/-- The note object the create handler builds: generateId for the id, the
body content, important || false (the body value when truthy, otherwise
the false of the right operand), and the timestamp taken at call time. -/
def createdNote (notes : List Note) (body : ReqBody) (now : String) : Note :=
  { id := generateId notes,
    content := body.content,
    important := if body.important.truthy then body.important else JsValue.bool false,
    date := now }

/-- POST /api/notes: reject a falsy content with 400; otherwise build the
note with createdNote, append it and answer 201 with the note. -/
def createNote (notes : List Note) (body : ReqBody) (now : String) : Response × List Note :=
  if !body.content.truthy then
    ({ status := 400, body := ResBody.error msgContentRequired }, notes)
  else
    ({ status := 201, body := ResBody.note (createdNote notes body now) },
     notes ++ [createdNote notes body now])

/-- PUT /api/notes/:id: find the note; 404 if absent; otherwise spread the
old note replacing important by the body value when it is not undefined,
map the collection replacing every entry with a matching id by the updated
note, and answer with the updated note. -/
def updateNote (notes : List Note) (pid : PathId) (body : ReqBody) : Response × List Note :=
  match notes.find? (fun n => idMatches n pid) with
  | none => ({ status := 404, body := ResBody.error msgNoteNotFound }, notes)
  | some note =>
    let updatedNote : Note :=
      { note with
        important := if body.important != JsValue.undef then body.important else note.important }
    ({ status := 200, body := ResBody.note updatedNote },
     notes.map (fun n => if idMatches n pid then updatedNote else n))

/-- DELETE /api/notes/:id: keep exactly the notes whose id is not the
parsed id, and answer 204 with an empty body. -/
def deleteNote (notes : List Note) (pid : PathId) : Response × List Note :=
  ({ status := 204, body := ResBody.empty },
   notes.filter (fun n => !idMatches n pid))

/-- Id uniqueness invariant of the collection. -/
def distinctIds (notes : List Note) : Prop :=
  (notes.map Note.id).Nodup

instance (notes : List Note) : Decidable (distinctIds notes) :=
  inferInstanceAs (Decidable (notes.map Note.id).Nodup)

/-- A fixed timestamp string used for concrete instances. -/
def seedDate : String := "2024-01-01T00:00:00.000Z"

/-- A request body with no fields at all. -/
def bodyNoContent : ReqBody :=
  { content := JsValue.undef, important := JsValue.undef }

/-- A request body carrying only a truthy content. -/
def bodyTestContent : ReqBody :=
  { content := JsValue.str seedContent1, important := JsValue.undef }

/-! ### Helper lemmas about the max fold behind generateId -/

theorem le_foldl_max (l : List Note) (a : Int) :
    a ≤ l.foldl (fun m x => max m x.id) a := by
  induction l generalizing a with
  | nil => exact le_refl a
  | cons b t ih => exact le_trans (le_max_left a b.id) (ih (max a b.id))

theorem mem_le_foldl_max (l : List Note) (a : Int) (x : Note) (hx : x ∈ l) :
    x.id ≤ l.foldl (fun m x => max m x.id) a := by
  induction l generalizing a with
  | nil => cases hx
  | cons b t ih =>
    rcases List.mem_cons.mp hx with h | h
    · subst h
      exact le_trans (le_max_right a x.id) (le_foldl_max t (max a x.id))
    · exact ih (max a b.id) h

theorem foldl_max_attained (l : List Note) (a : Int) :
    l.foldl (fun m x => max m x.id) a = a ∨
      ∃ x ∈ l, l.foldl (fun m x => max m x.id) a = x.id := by
  induction l generalizing a with
  | nil => exact Or.inl rfl
  | cons b t ih =>
    rcases ih (max a b.id) with h | h
    · rcases max_choice a b.id with hm | hm
      · exact Or.inl (by rw [List.foldl_cons, h, hm])
      · exact Or.inr ⟨b, List.mem_cons_self b t, by rw [List.foldl_cons, h, hm]⟩
    · rcases h with ⟨x, hx, he⟩
      exact Or.inr ⟨x, List.mem_cons_of_mem b hx, he⟩

theorem mem_le_maxId (notes : List Note) (x : Note) (hx : x ∈ notes) :
    x.id ≤ maxId notes := by
  match notes, hx with
  | n :: rest, hx =>
    rcases List.mem_cons.mp hx with h | h
    · subst h
      exact le_foldl_max rest x.id
    · exact mem_le_foldl_max rest n.id x h

theorem mem_lt_generateId (notes : List Note) (x : Note) (hx : x ∈ notes) :
    x.id < generateId notes :=
  lt_of_le_of_lt (mem_le_maxId notes x hx) (lt_add_one (maxId notes))

theorem maxId_attained (notes : List Note) (h : notes ≠ []) :
    ∃ x ∈ notes, maxId notes = x.id := by
  match notes, h with
  | n :: rest, _ =>
    show ∃ x ∈ n :: rest, rest.foldl (fun m x => max m x.id) n.id = x.id
    rcases foldl_max_attained rest n.id with he | he
    · exact ⟨n, List.mem_cons_self n rest, he⟩
    · rcases he with ⟨x, hx, he⟩
      exact ⟨x, List.mem_cons_of_mem n hx, he⟩

theorem generateId_not_mem (notes : List Note) :
    generateId notes ∉ notes.map Note.id := by
  intro hmem
  rcases List.mem_map.mp hmem with ⟨x, hx, he⟩
  exact absurd he (ne_of_gt (mem_lt_generateId notes x hx)).symm

/-! ### Helper lemmas about id lookup under the uniqueness invariant -/

theorem idMatches_num (n : Note) (i : Int) :
    idMatches n (PathId.num i) = true ↔ n.id = i := by
  simp [idMatches]

theorem match_unique (notes : List Note) (pid : PathId)
    (hnd : distinctIds notes) (n m : Note) (hn : n ∈ notes) (hm : m ∈ notes)
    (h1 : idMatches n pid = true) (h2 : idMatches m pid = true) : n = m := by
  cases pid with
  | nan => simp [idMatches] at h1
  | num i =>
    have e1 : n.id = i := (idMatches_num n i).mp h1
    have e2 : m.id = i := (idMatches_num m i).mp h2
    exact List.inj_on_of_nodup_map hnd hn hm (e1.trans e2.symm)

theorem find?_eq_of_match (notes : List Note) (pid : PathId)
    (hnd : distinctIds notes) (n : Note) (hn : n ∈ notes)
    (hmatch : idMatches n pid = true) :
    notes.find? (fun m => idMatches m pid) = some n := by
  cases hf : notes.find? (fun m => idMatches m pid) with
  | none =>
    exact absurd hmatch (by simpa using List.find?_eq_none.mp hf n hn)
  | some m =>
    have hm : m ∈ notes := List.mem_of_find?_eq_some hf
    have h2 := List.find?_some hf
    rw [match_unique notes pid hnd m n hm hn h2 hmatch]

theorem find?_eq_none_of_no_match (notes : List Note) (pid : PathId)
    (h : ∀ n ∈ notes, idMatches n pid = false) :
    notes.find? (fun n => idMatches n pid) = none :=
  List.find?_eq_none.mpr (fun x hx => by simp [h x hx])

/-! ### Claim theorems -/

/-- C4: a create request whose body lacks a truthy content fails with
status 400 and the JSON error body with message Content is required, and
the collection is returned exactly unchanged. -/
theorem create_missing_content_rejected (notes : List Note) (body : ReqBody)
    (now : String) (h : body.content.truthy = false) :
    createNote notes body now =
      ({ status := 400, body := ResBody.error msgContentRequired }, notes) := by
  simp [createNote, h]

theorem create_missing_content_rejected_witness :
    bodyNoContent.content.truthy = false ∧
      createNote (seedNotes seedDate seedDate seedDate) bodyNoContent seedDate =
        ({ status := 400, body := ResBody.error msgContentRequired },
         seedNotes seedDate seedDate seedDate) :=
  ⟨by decide,
   create_missing_content_rejected (seedNotes seedDate seedDate seedDate)
     bodyNoContent seedDate (by decide)⟩

/-- C5: an update request on an id matching no note in the collection
fails with status 404 and the JSON error body with message Note not found,
and the collection is returned exactly unchanged. -/
theorem update_missing_id_rejected (notes : List Note) (pid : PathId)
    (body : ReqBody) (h : ∀ n ∈ notes, idMatches n pid = false) :
    updateNote notes pid body =
      ({ status := 404, body := ResBody.error msgNoteNotFound }, notes) := by
  rw [updateNote, find?_eq_none_of_no_match notes pid h]

theorem update_missing_id_rejected_witness :
    (∀ n ∈ seedNotes seedDate seedDate seedDate,
        idMatches n (PathId.num 99) = false) ∧
      updateNote (seedNotes seedDate seedDate seedDate) (PathId.num 99)
          bodyNoContent =
        ({ status := 404, body := ResBody.error msgNoteNotFound },
         seedNotes seedDate seedDate seedDate) :=
  ⟨by decide,
   update_missing_id_rejected (seedNotes seedDate seedDate seedDate)
     (PathId.num 99) bodyNoContent (by decide)⟩

/-- C6: delete is idempotent: for every id it answers 204 with an empty
body whether or not a matching note is present, and deleting the same id a
second time leaves the collection exactly as after the first delete. -/
theorem delete_idempotent (notes : List Note) (pid : PathId) :
    (deleteNote notes pid).1 = { status := 204, body := ResBody.empty } ∧
      deleteNote (deleteNote notes pid).2 pid = deleteNote notes pid := by
  refine ⟨rfl, ?_⟩
  simp [deleteNote, List.filter_filter]

/-- C9: a path id whose Number parse yields NaN behaves exactly like an
absent id, because NaN compares strictly equal to no note id: get and
update answer 404 with the Note not found error body, and delete answers
204 leaving the collection unchanged. -/
theorem nan_id_like_absent (notes : List Note) (body : ReqBody) :
    getNote notes PathId.nan =
        ({ status := 404, body := ResBody.error msgNoteNotFound }, notes) ∧
      updateNote notes PathId.nan body =
        ({ status := 404, body := ResBody.error msgNoteNotFound }, notes) ∧
      deleteNote notes PathId.nan =
        ({ status := 204, body := ResBody.empty }, notes) := by
  have hf : notes.find? (fun n => idMatches n PathId.nan) = none :=
    find?_eq_none_of_no_match notes PathId.nan (fun n _ => rfl)
  refine ⟨?_, ?_, ?_⟩
  · rw [getNote, hf]
  · rw [updateNote, hf]
  · simp [deleteNote, List.filter_eq_self, idMatches]

/-- C7: under the id uniqueness invariant, get-by-id never changes the
collection; it answers 200 with the matching note when one is present and
404 with the Note not found error body otherwise; and fetching an id
immediately after deleting it always answers 404. -/
theorem get_note_spec (notes : List Note) (pid : PathId)
    (hnd : distinctIds notes) :
    (getNote notes pid).2 = notes ∧
      (∀ n ∈ notes, idMatches n pid = true →
        getNote notes pid = ({ status := 200, body := ResBody.note n }, notes)) ∧
      ((∀ n ∈ notes, idMatches n pid = false) →
        getNote notes pid =
          ({ status := 404, body := ResBody.error msgNoteNotFound }, notes)) ∧
      (getNote (deleteNote notes pid).2 pid).1 =
        { status := 404, body := ResBody.error msgNoteNotFound } := by
  refine ⟨?_, ?_, ?_, ?_⟩
  · cases hf : notes.find? (fun n => idMatches n pid) with
    | some m => simp [getNote, hf]
    | none => simp [getNote, hf]
  · intro n hn hm
    unfold getNote
    rw [find?_eq_of_match notes pid hnd n hn hm]
  · intro h
    unfold getNote
    rw [find?_eq_none_of_no_match notes pid h]
  · have h : ∀ m ∈ (deleteNote notes pid).2, idMatches m pid = false := by
      intro m hm
      simp only [deleteNote, List.mem_filter, Bool.not_eq_true'] at hm
      exact hm.2
    unfold getNote
    rw [find?_eq_none_of_no_match _ pid h]

theorem get_note_spec_witness :
    distinctIds (seedNotes seedDate seedDate seedDate) ∧
      (getNote (seedNotes seedDate seedDate seedDate) (PathId.num 2)).2 =
        seedNotes seedDate seedDate seedDate ∧
      (∀ n ∈ seedNotes seedDate seedDate seedDate,
        idMatches n (PathId.num 2) = true →
          getNote (seedNotes seedDate seedDate seedDate) (PathId.num 2) =
            ({ status := 200, body := ResBody.note n },
             seedNotes seedDate seedDate seedDate)) ∧
      ((∀ n ∈ seedNotes seedDate seedDate seedDate,
          idMatches n (PathId.num 2) = false) →
        getNote (seedNotes seedDate seedDate seedDate) (PathId.num 2) =
          ({ status := 404, body := ResBody.error msgNoteNotFound },
           seedNotes seedDate seedDate seedDate)) ∧
      (getNote
          (deleteNote (seedNotes seedDate seedDate seedDate) (PathId.num 2)).2
          (PathId.num 2)).1 =
        { status := 404, body := ResBody.error msgNoteNotFound } :=
  ⟨by decide,
   get_note_spec (seedNotes seedDate seedDate seedDate) (PathId.num 2)
     (by decide)⟩

/-- C3: under the id uniqueness invariant, an update request on the id of
a note n present in the collection answers 200 with an updated note that
agrees with n on id, content and date; the important field equals the body
value whenever the body provides one (anything other than undefined,
including an explicit false) and keeps the old value otherwise; the
collection is the pointwise map replacing only the entry with that id,
every other note staying unchanged in place. -/
theorem update_present_spec (notes : List Note) (pid : PathId)
    (body : ReqBody) (hnd : distinctIds notes) (n : Note) (hn : n ∈ notes)
    (hmatch : idMatches n pid = true) :
    ∃ updated : Note,
      updateNote notes pid body =
        ({ status := 200, body := ResBody.note updated },
         notes.map (fun m => if m.id = n.id then updated else m)) ∧
      updated.id = n.id ∧ updated.content = n.content ∧
      updated.date = n.date ∧
      (body.important ≠ JsValue.undef → updated.important = body.important) ∧
      (body.important = JsValue.undef → updated.important = n.important) := by
  obtain ⟨i, rfl⟩ : ∃ i, pid = PathId.num i := by
    cases pid with
    | nan => simp [idMatches] at hmatch
    | num i => exact ⟨i, rfl⟩
  have hid : n.id = i := (idMatches_num n i).mp hmatch
  have hf := find?_eq_of_match notes (PathId.num i) hnd n hn hmatch
  refine ⟨{ n with important :=
      if body.important != JsValue.undef then body.important
      else n.important }, ?_, rfl, rfl, rfl, ?_, ?_⟩
  · unfold updateNote
    rw [hf]
    refine congrArg (Prod.mk _) ?_
    apply List.map_congr_left
    intro m _
    by_cases hmi : m.id = i
    · simp [idMatches, hmi, hid]
    · simp [idMatches, hmi, hid]
  · intro h
    simp [bne_iff_ne, h]
  · intro h
    simp [h]

theorem update_present_spec_witness :
    distinctIds (seedNotes seedDate seedDate seedDate) ∧
      { id := 2, content := JsValue.str seedContent2,
        important := JsValue.bool false,
        date := seedDate : Note } ∈ seedNotes seedDate seedDate seedDate ∧
      idMatches
        { id := 2, content := JsValue.str seedContent2,
          important := JsValue.bool false, date := seedDate } (PathId.num 2)
        = true ∧
      ∃ updated : Note,
        updateNote (seedNotes seedDate seedDate seedDate) (PathId.num 2)
            { content := JsValue.undef, important := JsValue.bool true } =
          ({ status := 200, body := ResBody.note updated },
           (seedNotes seedDate seedDate seedDate).map
             (fun m => if m.id = (2 : Int) then updated else m)) ∧
        updated.id = 2 ∧ updated.content = JsValue.str seedContent2 ∧
        updated.date = seedDate ∧
        (JsValue.bool true ≠ JsValue.undef →
          updated.important = JsValue.bool true) ∧
        (JsValue.bool true = JsValue.undef →
          updated.important = JsValue.bool false) := by
  refine ⟨by decide, by decide, by decide, ?_⟩
  exact update_present_spec (seedNotes seedDate seedDate seedDate)
    (PathId.num 2)
    { content := JsValue.undef, important := JsValue.bool true }
    (by decide)
    { id := 2, content := JsValue.str seedContent2,
      important := JsValue.bool false, date := seedDate }
    (by decide) (by decide)

theorem getNote_snd (notes : List Note) (pid : PathId) :
    (getNote notes pid).2 = notes := by
  cases hf : notes.find? (fun n => idMatches n pid) with
  | some m => simp [getNote, hf]
  | none => simp [getNote, hf]

/-- C1: a create request whose body has a truthy content builds a note
whose id is one greater than the maximum id in the collection (1 when the
collection is empty), whose important field is the body value, or false
when the field is omitted, and whose date is the timestamp stamped at call
time; the note is appended at the end of the collection and that same note
is returned with status 201. -/
theorem create_spec (notes : List Note) (body : ReqBody) (now : String)
    (hc : body.content.truthy = true) :
    ∃ nt : Note,
      createNote notes body now =
        ({ status := 201, body := ResBody.note nt }, notes ++ [nt]) ∧
      nt.content = body.content ∧ nt.date = now ∧
      (body.important = JsValue.undef → nt.important = JsValue.bool false) ∧
      (∀ b : Bool, body.important = JsValue.bool b →
        nt.important = JsValue.bool b) ∧
      (notes = [] → nt.id = 1) ∧
      (∀ m ∈ notes, m.id < nt.id) ∧
      (notes ≠ [] → ∃ m ∈ notes, nt.id = m.id + 1) := by
  refine ⟨createdNote notes body now, ?_, rfl, rfl, ?_, ?_, ?_, ?_, ?_⟩
  · unfold createNote
    rw [hc]
    rfl
  · intro h
    show (if body.important.truthy then body.important
      else JsValue.bool false) = JsValue.bool false
    rw [h]
    rfl
  · intro b h
    show (if body.important.truthy then body.important
      else JsValue.bool false) = JsValue.bool b
    rw [h]
    cases b <;> rfl
  · intro h
    subst h
    rfl
  · exact fun m hm => mem_lt_generateId notes m hm
  · intro h
    rcases maxId_attained notes h with ⟨x, hx, he⟩
    refine ⟨x, hx, ?_⟩
    show maxId notes + 1 = x.id + 1
    rw [he]

theorem create_spec_witness :
    bodyTestContent.content.truthy = true ∧
      ∃ nt : Note,
        createNote (seedNotes seedDate seedDate seedDate) bodyTestContent
            seedDate =
          ({ status := 201, body := ResBody.note nt },
           seedNotes seedDate seedDate seedDate ++ [nt]) ∧
        nt.content = bodyTestContent.content ∧ nt.date = seedDate ∧
        (bodyTestContent.important = JsValue.undef →
          nt.important = JsValue.bool false) ∧
        (∀ b : Bool, bodyTestContent.important = JsValue.bool b →
          nt.important = JsValue.bool b) ∧
        (seedNotes seedDate seedDate seedDate = [] → nt.id = 1) ∧
        (∀ m ∈ seedNotes seedDate seedDate seedDate, m.id < nt.id) ∧
        (seedNotes seedDate seedDate seedDate ≠ [] →
          ∃ m ∈ seedNotes seedDate seedDate seedDate, nt.id = m.id + 1) :=
  ⟨by decide,
   create_spec (seedNotes seedDate seedDate seedDate) bodyTestContent
     seedDate (by decide)⟩

/-- C10: on a create with truthy content, the stored important field is
the body value when that value is truthy and the Boolean false otherwise:
every falsy supplied value collapses to false, while a truthy non-Boolean
value is stored as-is, not coerced to a Boolean. -/
theorem create_important_or_false (notes : List Note) (body : ReqBody)
    (now : String) (hc : body.content.truthy = true) :
    ∃ nt : Note,
      (createNote notes body now).1.body = ResBody.note nt ∧
      nt.important =
        (if body.important.truthy then body.important
         else JsValue.bool false) ∧
      (body.important.truthy = false → nt.important = JsValue.bool false) ∧
      (body.important.truthy = true → nt.important = body.important) := by
  refine ⟨createdNote notes body now, ?_, rfl, ?_, ?_⟩
  · unfold createNote
    rw [hc]
    rfl
  · intro h
    show (if body.important.truthy then body.important
      else JsValue.bool false) = JsValue.bool false
    simp [h]
  · intro h
    show (if body.important.truthy then body.important
      else JsValue.bool false) = body.important
    simp [h]

theorem create_important_or_false_witness :
    (JsValue.str seedContent1).truthy = true ∧
      ∃ nt : Note,
        (createNote (seedNotes seedDate seedDate seedDate)
            { content := JsValue.str seedContent1,
              important := JsValue.num 5 } seedDate).1.body =
          ResBody.note nt ∧
        nt.important =
          (if (JsValue.num 5).truthy then JsValue.num 5
           else JsValue.bool false) ∧
        ((JsValue.num 5).truthy = false → nt.important = JsValue.bool false) ∧
        ((JsValue.num 5).truthy = true → nt.important = JsValue.num 5) :=
  ⟨by decide,
   create_important_or_false (seedNotes seedDate seedDate seedDate)
     { content := JsValue.str seedContent1, important := JsValue.num 5 }
     seedDate (by decide)⟩

theorem updateNote_map_id (notes : List Note) (pid : PathId)
    (body : ReqBody) :
    ((updateNote notes pid body).2).map Note.id = notes.map Note.id := by
  cases hf : notes.find? (fun n => idMatches n pid) with
  | none => simp [updateNote, hf]
  | some note =>
    simp only [updateNote, hf]
    rw [List.map_map]
    apply List.map_congr_left
    intro m _
    by_cases h : idMatches m pid
    · have h2 := List.find?_some hf
      cases pid with
      | nan => simp [idMatches] at h
      | num i =>
        have e1 : m.id = i := by simpa [idMatches] using h
        have e2 : note.id = i := by simpa [idMatches] using h2
        simp [Function.comp, h, e1, e2]
    · simp [Function.comp, h]

theorem createNote_snd_of_truthy (notes : List Note) (body : ReqBody)
    (now : String) (hc : body.content.truthy = true) :
    (createNote notes body now).2 = notes ++ [createdNote notes body now] := by
  unfold createNote
  rw [hc]
  rfl

theorem createNote_fst_of_truthy (notes : List Note) (body : ReqBody)
    (now : String) (hc : body.content.truthy = true) :
    (createNote notes body now).1 =
      { status := 201, body := ResBody.note (createdNote notes body now) } := by
  unfold createNote
  rw [hc]
  rfl

/-- C2: under the id uniqueness invariant, which the three seed notes
satisfy for any startup dates, every operation of the service leaves a
collection whose ids are still pairwise distinct, and immediately after
any successful create the id of the returned note occurs exactly once in
the collection. -/
theorem operations_preserve_distinct_ids (notes : List Note)
    (hnd : distinctIds notes) :
    (∀ d1 d2 d3 : String, distinctIds (seedNotes d1 d2 d3)) ∧
      distinctIds (listNotes notes).2 ∧
      (∀ pid, distinctIds (getNote notes pid).2) ∧
      (∀ body now, distinctIds (createNote notes body now).2) ∧
      (∀ pid body, distinctIds (updateNote notes pid body).2) ∧
      (∀ pid, distinctIds (deleteNote notes pid).2) ∧
      (∀ body now nt, (createNote notes body now).1.body = ResBody.note nt →
        ((createNote notes body now).2.map Note.id).count nt.id = 1) := by
  refine ⟨?_, hnd, ?_, ?_, ?_, ?_, ?_⟩
  · intro d1 d2 d3
    show ((seedNotes d1 d2 d3).map Note.id).Nodup
    have h : (seedNotes d1 d2 d3).map Note.id = [1, 2, 3] := rfl
    rw [h]
    decide
  · intro pid
    show distinctIds (getNote notes pid).2
    rw [getNote_snd]
    exact hnd
  · intro body now
    cases hc : body.content.truthy with
    | false =>
      have h2 : (createNote notes body now).2 = notes := by
        unfold createNote
        rw [hc]
        rfl
      rw [h2]
      exact hnd
    | true =>
      rw [createNote_snd_of_truthy notes body now hc]
      show ((notes ++ [createdNote notes body now]).map Note.id).Nodup
      rw [List.map_append]
      refine List.Nodup.append hnd (List.nodup_singleton _) ?_
      intro a ha hb
      simp only [List.map_cons, List.map_nil, List.mem_singleton] at hb
      subst hb
      exact generateId_not_mem notes ha
  · intro pid body
    show (((updateNote notes pid body).2).map Note.id).Nodup
    rw [updateNote_map_id]
    exact hnd
  · intro pid
    show (((deleteNote notes pid).2).map Note.id).Nodup
    exact List.Nodup.sublist
      (List.Sublist.map Note.id (List.filter_sublist notes)) hnd
  · intro body now nt hb
    cases hc : body.content.truthy with
    | false =>
      have hb2 : ResBody.error msgContentRequired = ResBody.note nt := by
        unfold createNote at hb
        rw [hc] at hb
        exact hb
      exact ResBody.noConfusion hb2
    | true =>
      have hb2 : ResBody.note (createdNote notes body now) = ResBody.note nt := by
        rw [createNote_fst_of_truthy notes body now hc] at hb
        exact hb
      obtain rfl : createdNote notes body now = nt := by injection hb2
      have hz : (notes.map Note.id).count (createdNote notes body now).id = 0 :=
        List.count_eq_zero_of_not_mem (generateId_not_mem notes)
      rw [createNote_snd_of_truthy notes body now hc, List.map_append,
        List.count_append, hz]
      simp

theorem operations_preserve_distinct_ids_witness :
    distinctIds (seedNotes seedDate seedDate seedDate) ∧
      (∀ d1 d2 d3 : String, distinctIds (seedNotes d1 d2 d3)) ∧
      distinctIds (listNotes (seedNotes seedDate seedDate seedDate)).2 ∧
      (∀ pid,
        distinctIds (getNote (seedNotes seedDate seedDate seedDate) pid).2) ∧
      (∀ body now,
        distinctIds
          (createNote (seedNotes seedDate seedDate seedDate) body now).2) ∧
      (∀ pid body,
        distinctIds
          (updateNote (seedNotes seedDate seedDate seedDate) pid body).2) ∧
      (∀ pid,
        distinctIds
          (deleteNote (seedNotes seedDate seedDate seedDate) pid).2) ∧
      (∀ body now nt,
        (createNote (seedNotes seedDate seedDate seedDate) body now).1.body =
            ResBody.note nt →
          ((createNote (seedNotes seedDate seedDate seedDate) body
                now).2.map Note.id).count nt.id = 1) :=
  ⟨by decide,
   operations_preserve_distinct_ids (seedNotes seedDate seedDate seedDate)
     (by decide)⟩

/-- C8: for a collection with pairwise distinct ids, creating a note with
truthy content and then deleting exactly the id of the note the create
returned restores the collection to the prior sequence of notes in the
original order. -/
theorem create_delete_roundtrip (notes : List Note) (body : ReqBody)
    (now : String) (hnd : distinctIds notes)
    (hc : body.content.truthy = true) :
    ∀ nt : Note, (createNote notes body now).1.body = ResBody.note nt →
      (deleteNote (createNote notes body now).2 (PathId.num nt.id)).2 =
        notes := by
  intro nt hb
  have hb2 : ResBody.note (createdNote notes body now) = ResBody.note nt := by
    rw [createNote_fst_of_truthy notes body now hc] at hb
    exact hb
  obtain rfl : createdNote notes body now = nt := by injection hb2
  rw [createNote_snd_of_truthy notes body now hc]
  show ((notes ++ [createdNote notes body now]).filter
      (fun m => !idMatches m (PathId.num (createdNote notes body now).id)))
    = notes
  rw [List.filter_append]
  have hsingle : (([createdNote notes body now]).filter
      (fun m => !idMatches m (PathId.num (createdNote notes body now).id)))
      = [] := by
    simp [idMatches]
  have hkeep : (notes.filter
      (fun m => !idMatches m (PathId.num (createdNote notes body now).id)))
      = notes := by
    refine List.filter_eq_self.mpr ?_
    intro m hm
    have hlt := mem_lt_generateId notes m hm
    simp only [idMatches, Bool.not_eq_true', beq_eq_false_iff_ne, ne_eq]
    exact ne_of_lt hlt
  rw [hsingle, hkeep, List.append_nil]

theorem create_delete_roundtrip_witness :
    distinctIds (seedNotes seedDate seedDate seedDate) ∧
      bodyTestContent.content.truthy = true ∧
      ∀ nt : Note,
        (createNote (seedNotes seedDate seedDate seedDate) bodyTestContent
              seedDate).1.body = ResBody.note nt →
          (deleteNote
              (createNote (seedNotes seedDate seedDate seedDate)
                bodyTestContent seedDate).2
              (PathId.num nt.id)).2 =
            seedNotes seedDate seedDate seedDate :=
  ⟨by decide, by decide,
   create_delete_roundtrip (seedNotes seedDate seedDate seedDate)
     bodyTestContent seedDate (by decide) (by decide)⟩
